import Mathlib

/-!
# Verification of the VeinDetector fusion engine and ROI tracker

Shallow embedding of `src/backend/vein_detector.py` (candidate fusion:
overlap-based non-maximum suppression, `VeinRegion` creation, the three
candidate generators' per-candidate filtering logic) and of
`src/backend/roi_handler.py` (the `ROIHandler` tracker state machine).

Modelling conventions, used consistently below:

* Python `int` is modelled as `ℤ`; Python `float` is modelled as `ℚ`
  (every IEEE double is a rational number; arithmetic is modelled exactly).
  `np.pi` is modelled by the exact rational value of the double-precision
  constant (`np_pi` below).
* `math.sqrt` / `np.sqrt` values are modelled with `Real.sqrt`.  Whenever the
  source *compares* a square root against another quantity, the embedded
  executable definition uses the equivalent squared comparison (both sides
  are non-negative); bridging lemmas relate each executable comparison to
  the corresponding `Real.sqrt` statement.
* Python `//` (floor division) is `Int.fdiv`; `int(x)` applied to a float is
  truncation toward zero (`⌊x⌋` for `x ≥ 0`, `⌈x⌉` for `x < 0`).
* Python dicts used as candidate records are modelled by the `Candidate`
  structure with `Option` fields; `dict.get(k, d)` becomes `Option.getD`.
  Keys that are written but never read anywhere downstream
  (`'type'`, `'angle'`, `'eccentricity'` on candidate dicts) are omitted.
* `collections.deque(maxlen = n)` is a `List` together with the bounded
  append `appendBounded n`.
* External OpenCV / skimage primitives (`HoughCircles`, `findContours`,
  `fitEllipse`, `label`/`regionprops`, `Canny`, preprocessing) are oracles:
  their *results* are inputs to the embedded functions, and a raised
  exception is represented by `Except.error` / a `none` fit result.
-/

namespace VD

/-- Exact rational value of the IEEE-754 double `np.pi` (= `math.pi`). -/
def np_pi : ℚ := 884279719003555 / 281474976710656

/-- Truncation toward zero of a rational, modelling Python `int(x)` on a
float value `x`. -/
def qtrunc (q : ℚ) : ℤ := if 0 ≤ q then ⌊q⌋ else ⌈q⌉

/-- `appendBounded n xs x` models `deque(maxlen = n).append(x)`: append `x`
and drop elements from the front so that at most `n` remain. -/
def appendBounded {α : Type} (n : ℕ) (xs : List α) (x : α) : List α :=
  let ys := xs ++ [x]
  ys.drop (ys.length - n)

/-- The last `n` elements of a list, modelling Python `l[-n:]`. -/
def lastN {α : Type} (n : ℕ) (l : List α) : List α := l.drop (l.length - n)

/-- A candidate region dict, as produced by `_hough_circle_detection`,
`_ellipse_fitting` and `_connected_component_analysis` and consumed by
`_merge_and_filter_results`.  Each field is `Option`al, mirroring dict key
presence; write-only keys (`'type'`, `'angle'`, `'eccentricity'`) are
omitted (no code downstream of the generators ever reads them). -/
structure Candidate where
  center : Option (ℚ × ℚ)
  radius : Option ℚ
  axes : Option (ℚ × ℚ)
  confidence : Option ℚ
  area : Option ℚ
  perimeter : Option ℚ
  ellipticity : Option ℚ
  bbox : Option (ℚ × ℚ × ℚ × ℚ)
deriving DecidableEq

/-- The empty candidate dict (every key absent). -/
def cnone : Candidate := ⟨none, none, none, none, none, none, none, none⟩

/-- `region_dict.get('center', (0, 0))`. -/
def centerOf (c : Candidate) : ℚ × ℚ := c.center.getD (0, 0)

/-- The equivalent radius used by `_calculate_overlap_ratio` and
`_create_vein_region`: `radius = region.get('radius', 10)`, overridden by
`max(region['axes']) / 2` when the `'axes'` key is present. -/
def equivRadius (c : Candidate) : ℚ :=
  match c.axes with
  | some (a, b) => max a b / 2
  | none => c.radius.getD 10

/-- Squared distance between the two candidates' centers (the source takes
`np.sqrt` of this; comparisons are bridged via squares). -/
def distSq (c1 c2 : Candidate) : ℚ :=
  ((centerOf c1).1 - (centerOf c2).1) ^ 2 + ((centerOf c1).2 - (centerOf c2).2) ^ 2

/-- `VeinDetector._calculate_overlap_ratio`, value-level model over `ℝ`:
`distance = sqrt(dx² + dy²)`; `min_radius = min(radius1, radius2)`;
`if distance < min_radius: return (min_radius - distance) / min_radius`;
`return 0.0`. -/
noncomputable def overlapReal (c1 c2 : Candidate) : ℝ :=
  let d : ℝ := Real.sqrt (distSq c1 c2)
  let m : ℝ := (min (equivRadius c1) (equivRadius c2) : ℚ)
  if d < m then (m - d) / m else 0

/-- Executable form of the comparison
`_calculate_overlap_ratio(r1, r2) > t` used by the NMS loop.  For
`m = min_radius` and `D = distance²`: `sqrt D < m ↔ 0 < m ∧ D < m²`, and
then `(m - sqrt D)/m > t ↔ 0 < m*(1-t) ∧ D < (m*(1-t))²`; otherwise the
overlap is `0`, which exceeds `t` iff `t < 0`.  `overlapGTb_iff` below
proves the equivalence with the `Real.sqrt` formulation. -/
def overlapGTb (c1 c2 : Candidate) (t : ℚ) : Bool :=
  let D := distSq c1 c2
  let m := min (equivRadius c1) (equivRadius c2)
  if 0 < m ∧ D < m ^ 2 then
    decide (0 < m * (1 - t) ∧ D < (m * (1 - t)) ^ 2)
  else
    decide (t < 0)

/-- Sort key: `x.get('confidence', 0)`. -/
def confKey (c : Candidate) : ℚ := c.confidence.getD 0

/-- `sorted(regions, key=lambda x: x.get('confidence', 0), reverse=True)`
(stable descending sort). -/
def sortByConfDesc (l : List Candidate) : List Candidate :=
  l.mergeSort (fun a b => decide (confKey b ≤ confKey a))

/-- One step of the greedy NMS loop of `_remove_overlapping_regions`:
a candidate is appended iff its overlap with every already-accepted
candidate is `≤ overlap_threshold`. -/
def nmsStep (t : ℚ) (acc : List Candidate) (r : Candidate) : List Candidate :=
  if acc.any (fun e => overlapGTb r e t) then acc else acc ++ [r]

/-- `VeinDetector._remove_overlapping_regions(regions, overlap_threshold)`
(the caller `_merge_and_filter_results` uses the default
`overlap_threshold = 0.3`). -/
def removeOverlappingRegions (t : ℚ) (regions : List Candidate) : List Candidate :=
  (sortByConfDesc regions).foldl (nmsStep t) []

/-- The `VeinRegion` dataclass of `vein_detector.py`. -/
structure VeinRegion where
  center : ℚ × ℚ
  radius : ℚ
  area : ℚ
  perimeter : ℚ
  ellipticity : ℚ
  confidence : ℚ
  bbox : ℚ × ℚ × ℚ × ℚ
deriving DecidableEq

/-- `VeinDetector._create_vein_region(region_dict)`.  The `try/except`
wrapper cannot fire for a well-formed candidate record (every read is a
`dict.get` with a default and total arithmetic), so the result is always
`some _`; the `Option` return mirrors the source's `Optional[VeinRegion]`
signature and the caller's `if vein_region:` check.  Note that
`perimeter` is unconditionally computed as `2 * np.pi * radius` — the
source never reads a `'perimeter'` key here. -/
def createVeinRegion (c : Candidate) : Option VeinRegion :=
  let center := centerOf c
  let confidence := c.confidence.getD (1 / 2)
  let radius := equivRadius c
  let area := c.area.getD (np_pi * radius ^ 2)
  let perimeter := 2 * np_pi * radius
  let ellipticity := c.ellipticity.getD 1
  let bbox := c.bbox.getD (center.1 - radius, center.2 - radius, 2 * radius, 2 * radius)
  some ⟨center, radius, area, perimeter, ellipticity, confidence, bbox⟩

/-- `vein_regions.sort(key=lambda x: x.confidence, reverse=True)`. -/
def sortVeinsByConfDesc (l : List VeinRegion) : List VeinRegion :=
  l.mergeSort (fun a b => decide (b.confidence ≤ a.confidence))

/-- `VeinDetector._merge_and_filter_results(circles, ellipses, regions)`. -/
def mergeAndFilterResults (circles ellipses regions : List Candidate) : List VeinRegion :=
  let all_candidates := circles ++ ellipses ++ regions
  let filtered := removeOverlappingRegions (3 / 10) all_candidates
  sortVeinsByConfDesc (filtered.filterMap createVeinRegion)

/-- The detection settings dict (`_get_default_settings` keys).  The Canny
and Hough parameters are only passed to external OpenCV calls (oracles
here), but are kept for completeness.  `min_aspect`/`max_aspect` are the
source's `min_aspect_ratio`/`max_aspect_ratio`. -/
structure DetectionSettings where
  canny_threshold_low : ℚ
  canny_threshold_high : ℚ
  hough_dp : ℚ
  hough_min_dist : ℚ
  hough_param1 : ℚ
  hough_param2 : ℚ
  min_vein_area : ℚ
  max_vein_area : ℚ
  elliptical_tolerance : ℚ
  min_aspect : ℚ
  max_aspect : ℚ

/-- `VeinDetector._get_default_settings()`. -/
def defaultSettings : DetectionSettings :=
  ⟨50, 150, 1, 50, 50, 30, 100, 2000, 3 / 10, 3 / 10, 3⟩

/-- `VeinDetector._hough_circle_detection`: the `cv2.HoughCircles` result is
an oracle input (`none` models the `None` return); each rounded integer
circle `(x, y, r)` becomes a candidate with fixed confidence `0.8`. -/
def houghCircleDetection (circles : Option (List (ℤ × ℤ × ℤ))) : List Candidate :=
  match circles with
  | none => []
  | some cs =>
      cs.map fun p =>
        { cnone with
            center := some ((p.1 : ℚ), (p.2.1 : ℚ))
            radius := some (p.2.2 : ℚ)
            confidence := some (4 / 5) }

/-- Result of `cv2.fitEllipse`: `(x, y), (MA, ma), angle` exactly as the
source unpacks it (`MA` is the first axis length, `ma` the second). -/
structure EllipseFit where
  cx : ℚ
  cy : ℚ
  MA : ℚ
  ma : ℚ
  angle : ℚ
deriving DecidableEq

/-- One contour found by `cv2.findContours`, with its precomputed
`cv2.contourArea` and the oracle outcome of `cv2.fitEllipse` on it
(`none` models a raised `cv2.error`, caught per-contour). -/
structure ContourData where
  npoints : ℕ
  area : ℚ
  fit : Option EllipseFit
deriving DecidableEq

/-- `VeinDetector._calculate_ellipse_confidence(contour, ellipse)`:
`ellipse_area = π·MA·ma`; `0.0` when that is zero, else
`min(contour_area / ellipse_area, 1.0) * 0.9`.  The `try/except` wrapper
cannot fire here (the division is guarded by the zero test). -/
def calculateEllipseConfidence (contour_area : ℚ) (f : EllipseFit) : ℚ :=
  let ellipse_area := np_pi * f.MA * f.ma
  if ellipse_area = 0 then 0
  else min (contour_area / ellipse_area) 1 * (9 / 10)

/-- `VeinDetector._ellipse_fitting`: per contour — area filter, `≥ 5`
points needed for a fit, a failed fit (`cv2.error`) skips just that
contour, `ellipticity = MA / ma if ma > 0 else 0`, ellipticity filter
`[1 - tol, 1 + tol]`.  The candidate's center is `(int(x), int(y))`
(truncation toward zero). -/
def ellipseFitting (st : DetectionSettings) (contours : List ContourData) : List Candidate :=
  contours.filterMap fun ct =>
    if ct.area < st.min_vein_area ∨ st.max_vein_area < ct.area then none
    else if 5 ≤ ct.npoints then
      match ct.fit with
      | none => none
      | some f =>
          let ellipticity := if 0 < f.ma then f.MA / f.ma else 0
          if ellipticity < 1 - st.elliptical_tolerance ∨
             1 + st.elliptical_tolerance < ellipticity then none
          else
            some { cnone with
                     center := some ((qtrunc f.cx : ℚ), (qtrunc f.cy : ℚ))
                     axes := some (f.MA, f.ma)
                     ellipticity := some ellipticity
                     confidence := some (calculateEllipseConfidence ct.area f)
                     area := some ct.area }
    else none

/-- One region from `skimage.measure.regionprops` (oracle data): area,
optional eccentricity (the source guards with `hasattr`), bounding box
`(min_row, min_col, max_row, max_col)`, centroid, perimeter and the
intensity extrema used for the confidence contrast term. -/
structure RegionProp where
  area : ℚ
  eccentricity : Option ℚ
  bbox : ℤ × ℤ × ℤ × ℤ
  centroid : ℚ × ℚ
  perimeter : ℚ
  min_intensity : ℚ
  max_intensity : ℚ
deriving DecidableEq

/-- `VeinDetector._calculate_region_confidence(region, frame)`:
`0.5 + 0.3·min(area/1000, 1) + 0.2·contrast`, capped at `1`, where
`contrast = (max − min)/255` if `max > min` else `0`. -/
def calculateRegionConfidence (r : RegionProp) : ℚ :=
  let area_normalized := min (r.area / 1000) 1
  let contrast :=
    if r.min_intensity < r.max_intensity then (r.max_intensity - r.min_intensity) / 255 else 0
  min (1 / 2 + 3 / 10 * area_normalized + 1 / 5 * contrast) 1

/-- `VeinDetector._connected_component_analysis` applied to the
`regionprops` oracle output: area filter, eccentricity `> 0.9` filter
(only when the attribute exists), zero-width/zero-height bbox skip,
aspect filter `[min_aspect_ratio, max_aspect_ratio]`.  The produced
candidate carries the measured `'perimeter'`, the `(row, col)` centroid as
its `'center'` and the raw `(minr, minc, maxr, maxc)` bbox, exactly as the
source stores them. -/
def connectedComponentAnalysis (st : DetectionSettings) (regions : List RegionProp) :
    List Candidate :=
  regions.filterMap fun r =>
    if r.area < st.min_vein_area ∨ st.max_vein_area < r.area then none
    else if (match r.eccentricity with | some e => decide (9 / 10 < e) | none => false) then none
    else
      let width := r.bbox.2.2.2 - r.bbox.2.1
      let height := r.bbox.2.2.1 - r.bbox.1
      if width = 0 ∨ height = 0 then none
      else
        let aspect : ℚ := (max width height : ℤ) / (min width height : ℤ)
        if aspect < st.min_aspect ∨ st.max_aspect < aspect then none
        else
          some { cnone with
                   center := some r.centroid
                   bbox := some ((r.bbox.1 : ℚ), (r.bbox.2.1 : ℚ),
                                 (r.bbox.2.2.1 : ℚ), (r.bbox.2.2.2 : ℚ))
                   area := some r.area
                   perimeter := some r.perimeter
                   confidence := some (calculateRegionConfidence r) }

/-- Oracle outcomes for the external steps of one `detect_veins_in_frame`
call.  `Except.error` models a raised exception in that step; every such
exception propagates to the frame-level `try/except`. -/
structure FrameOracle where
  preprocess : Except String Unit
  canny : Except String Unit
  hough : Except String (Option (List (ℤ × ℤ × ℤ)))
  contours : Except String (List ContourData)
  regionprops : Except String (List RegionProp)

/-- The body of the `try:` block of `detect_veins_in_frame` (before the
ROI re-mapping): preprocessing, Canny, the three generators, fusion. -/
def runDetect (st : DetectionSettings) (o : FrameOracle) :
    Except String (List VeinRegion) := do
  let _ ← o.preprocess
  let _ ← o.canny
  let circles ← o.hough
  let contours ← o.contours
  let props ← o.regionprops
  pure (mergeAndFilterResults (houghCircleDetection circles)
          (ellipseFitting st contours) (connectedComponentAnalysis st props))

/-- The ROI re-mapping step of `detect_veins_in_frame`: when an ROI was
supplied, shift every region's center and bbox by the ROI offset.  (The
source guards with `if roi and vein_regions:`; on an empty list the map is
the identity, so the guard is equivalent to `if roi:`.) -/
def remapRoi (roi : Option (ℤ × ℤ × ℤ × ℤ)) (l : List VeinRegion) : List VeinRegion :=
  match roi with
  | none => l
  | some r =>
      l.map fun v =>
        { v with
            center := (v.center.1 + (r.1 : ℚ), v.center.2 + (r.2.1 : ℚ))
            bbox := (v.bbox.1 + (r.1 : ℚ), v.bbox.2.1 + (r.2.1 : ℚ),
                     v.bbox.2.2.1, v.bbox.2.2.2) }

/-- `VeinDetector.detect_veins_in_frame(frame, roi)`: the whole pipeline
runs inside `try: ... except Exception: return []`, so any failing step
yields the empty list and no exception reaches the caller. -/
def detectVeinsInFrame (st : DetectionSettings) (o : FrameOracle)
    (roi : Option (ℤ × ℤ × ℤ × ℤ)) : List VeinRegion :=
  match runDetect st o with
  | .ok l => remapRoi roi l
  | .error _ => []

/-- An ROI tuple `(x, y, width, height)` of Python ints. -/
abbrev Roi : Type := ℤ × ℤ × ℤ × ℤ

/-- Frame dimensions: `frame.shape[0]` is the height, `frame.shape[1]` the
width (the only data of the frame the tracker reads). -/
structure FrameDims where
  height : ℤ
  width : ℤ

/-- The `ROIMovement` dataclass of `roi_handler.py`.  `movement_type` is
one of the source's string literals `"none"`, `"stable"`, `"drift"`,
`"jump"`. -/
structure ROIMovement where
  dx : ℤ
  dy : ℤ
  confidence : ℚ
  movement_type : String
deriving DecidableEq

/-- The mutable state of a `ROIHandler` instance (constructor parameters
plus the fields assigned in `__init__`). -/
structure ROIHandler where
  initial_width : ℤ
  initial_height : ℤ
  movement_threshold : ℚ
  max_movement_speed : ℚ
  current_roi : Option Roi
  movement_history : List ROIMovement
  position_history : List (ℤ × ℤ)
  total_movements : ℕ
  stable_frames : ℕ
  drift_frames : ℕ
deriving DecidableEq

/-- `ROIHandler.__init__(initial_width, initial_height, movement_threshold,
max_movement_speed)` (defaults `200, 200, 0.1, 50.0`). -/
def mkROIHandler (iw ih : ℤ) (mt ms : ℚ) : ROIHandler :=
  ⟨iw, ih, mt, ms, none, [], [], 0, 0, 0⟩

/-- `ROIHandler.initialize_roi(center_x, center_y, frame_width,
frame_height)`: clamps an `initial_width × initial_height` window at
`center`, records the center in the position history, and returns
(new state, roi). -/
def initRoi (s : ROIHandler) (cx cy fw fh : ℤ) : ROIHandler × Roi :=
  let half_width := s.initial_width.fdiv 2
  let half_height := s.initial_height.fdiv 2
  let x := max 0 (cx - half_width)
  let y := max 0 (cy - half_height)
  let width := min s.initial_width (fw - x)
  let height := min s.initial_height (fh - y)
  let roi : Roi := (x, y, width, height)
  ({ s with
       current_roi := some roi
       position_history := appendBounded 10 s.position_history (cx, cy) }, roi)

/-- `ROIHandler._get_current_center()`. -/
def getCurrentCenter (s : ROIHandler) : ℤ × ℤ :=
  match s.current_roi with
  | none => (0, 0)
  | some (x, y, width, height) => (x + width.fdiv 2, y + height.fdiv 2)

/-- First index of the minimum of a list (Python
`distances.index(min(distances))`); fold keeping the earliest minimum. -/
def idxOfMinAux : List ℚ → ℚ → ℕ → ℕ → ℕ
  | [], _, best_idx, _ => best_idx
  | q :: qs, best, best_idx, cur =>
      if q < best then idxOfMinAux qs q cur (cur + 1)
      else idxOfMinAux qs best best_idx (cur + 1)

/-- First index of the minimum (0 on the empty list; only called on lists
of length ≥ 2). -/
def idxOfMin : List ℚ → ℕ
  | [] => 0
  | q :: qs => idxOfMinAux qs q 0 1

/-- Squared distance from an integer point to a rational point. -/
def pdistSq (c : ℤ × ℤ) (r : ℚ × ℚ) : ℚ :=
  ((c.1 : ℚ) - r.1) ^ 2 + ((c.2 : ℚ) - r.2) ^ 2

/-- Minimum squared distance from `center` to the existing region centers
(`region.get('center', (0, 0))` of each hint dict; the hint list is
modelled directly as the list of those centers).
`_calculate_overlap_with_existing` returns `max(0, 1 − √Dmin/100)`, a
strictly decreasing function of this value on `[0, 10000)` and `0`
beyond, which is all the caller's comparisons depend on. -/
def minDistSqToRegions (c : ℤ × ℤ) (regions : List (ℚ × ℚ)) : ℚ :=
  match regions with
  | [] => 0
  | r :: rs => rs.foldl (fun acc q => min acc (pdistSq c q)) (pdistSq c r)

/-- Comparison `overlap_new > best_overlap` of the hint loop in
`_calculate_target_center`, with overlaps represented by their minimum
squared distances (`none` is the initial `best_overlap = -1`, which every
overlap value `≥ 0` strictly exceeds).  For `ov(D) = max(0, 1 − √D/100)`:
`ov(D) > ov(D') ↔ D < min 10000 D'`. -/
def ovGT (Dnew : ℚ) (best : Option ℚ) : Bool :=
  match best with
  | none => true
  | some Dbest => decide (Dnew < min 10000 Dbest)

/-- The hint-override loop of `_calculate_target_center`: iterate over the
candidate centers, tracking the best proximity overlap against the hint
regions and its index (initially `best_overlap = -1`,
`target_idx = min_dist_idx`). -/
def bestOverlapFold (regions : List (ℚ × ℚ)) :
    List (ℤ × ℤ) → Option ℚ → ℕ → ℕ → ℕ
  | [], _, best_idx, _ => best_idx
  | c :: cs, best, best_idx, cur =>
      let Dnew := minDistSqToRegions c regions
      if ovGT Dnew best then bestOverlapFold regions cs (some Dnew) cur (cur + 1)
      else bestOverlapFold regions cs best best_idx (cur + 1)

/-- `ROIHandler._calculate_target_center(vein_centers, roi_info)`.
`roi_info` is modelled as the optional list of the `'existing_regions'`
hint centers (`none` covers both a missing dict and a missing key).
Distances are compared via their squares (same argmin as the source's
`math.sqrt` distances). -/
def calcTargetCenter (s : ROIHandler) (vein_centers : List (ℤ × ℤ))
    (roi_info : Option (List (ℚ × ℚ))) : ℤ × ℤ :=
  match vein_centers with
  | [] => getCurrentCenter s
  | [c] => c
  | _ =>
    let current := getCurrentCenter s
    let distances := vein_centers.map fun c =>
      (((c.1 - current.1) ^ 2 + (c.2 - current.2) ^ 2 : ℤ) : ℚ)
    let min_dist_idx := idxOfMin distances
    let target_idx :=
      match roi_info with
      | some existing_regions =>
          if existing_regions.isEmpty then min_dist_idx
          else bestOverlapFold existing_regions vein_centers none min_dist_idx 0
      | none => min_dist_idx
    vein_centers.getD target_idx (0, 0)

/-- Truncation toward zero of `q / Real.sqrt s` (for `0 < s`), computed in
integer arithmetic: for `q ≥ 0`, `⌊q/√s⌋ = Nat.sqrt ⌊q²/s⌋`, and the
negative case mirrors through `int(-x) = -int(x)`.  `divSqrtTrunc_eq`
below proves the equality with the `Real.sqrt` formulation. -/
def divSqrtTrunc (q s : ℚ) : ℤ :=
  if 0 ≤ q then (Nat.sqrt (⌊q ^ 2 / s⌋).toNat : ℤ)
  else -(Nat.sqrt (⌊q ^ 2 / s⌋).toNat : ℤ)

/-- The comparison `math.sqrt s > m` for `s ≥ 0`, via squares. -/
def sqrtGT (s m : ℚ) : Bool := decide (m < 0) || decide (m ^ 2 < s)

/-- `ROIHandler._limit_movement(dx, dy)`: if `sqrt(dx² + dy²)` exceeds
`max_movement_speed`, scale both components by `max_movement_speed /
distance` and truncate each to an int (Python `int(...)`), else return
them unchanged.  (For `max_movement_speed < 0` and `dx = dy = 0` the
source would divide by zero; every claim below concerns the default
`max_movement_speed = 50 ≥ 0`, where the scaling branch implies
`dx² + dy² > 0`.) -/
def limitMovement (ms : ℚ) (dx dy : ℤ) : ℤ × ℤ :=
  let distSq : ℚ := ((dx ^ 2 + dy ^ 2 : ℤ) : ℚ)
  if sqrtGT distSq ms then
    (divSqrtTrunc (ms * dx) distSq, divSqrtTrunc (ms * dy) distSq)
  else (dx, dy)

/-- `ROIHandler._smooth_movement(dx, dy)`: with at least 2 recorded
movements, blend with the average of the last (up to) 3 recorded
displacements, weights `0.7 / 0.3`, truncating each result to an int. -/
def smoothMovement (s : ROIHandler) (dx dy : ℤ) : ℤ × ℤ :=
  if s.movement_history.length < 2 then (dx, dy)
  else
    let recent := lastN 3 s.movement_history
    let n : ℚ := recent.length
    let avg_dx := ((recent.map fun m => (m.dx : ℚ)).sum) / n
    let avg_dy := ((recent.map fun m => (m.dy : ℚ)).sum) / n
    (qtrunc ((dx : ℚ) * (7 / 10) + avg_dx * (3 / 10)),
     qtrunc ((dy : ℚ) * (7 / 10) + avg_dy * (3 / 10)))

/-- `ROIHandler._apply_movement(dx, dy)`: shift the ROI's corner; the
source's frame-bounds clamp is commented out (deferred to the caller). -/
def applyMovement (s : ROIHandler) (dx dy : ℤ) : Roi :=
  match s.current_roi with
  | none => (0, 0, s.initial_width, s.initial_height)
  | some (x, y, width, height) => (x + dx, y + dy, width, height)

/-- `ROIHandler._classify_movement(dx, dy)`: `sqrt(dx² + dy²) < 3 ⇒
"stable"`, `< 20 ⇒ "drift"`, else `"jump"`; the square-root comparisons
are realized on the integer squares (`classifyMovement_spec` proves the
`Real.sqrt` equivalence). -/
def classifyMovement (dx dy : ℤ) : String :=
  if dx ^ 2 + dy ^ 2 < 9 then "stable"
  else if dx ^ 2 + dy ^ 2 < 400 then "drift"
  else "jump"

/-- Population variance (`np.var`) of a list of rationals. -/
def qvar (l : List ℚ) : ℚ :=
  let n : ℚ := l.length
  let mean := l.sum / n
  ((l.map fun q => (q - mean) ^ 2).sum) / n

/-- `ROIHandler._calculate_movement_confidence(vein_centers)`:
`0.4·count_factor + 0.4·consistency_factor + 0.2·smoothness_factor`,
capped at 1. -/
def calcMovementConfidence (s : ROIHandler) (vein_centers : List (ℤ × ℤ)) : ℚ :=
  if vein_centers.isEmpty then 0
  else
    let count_factor := min ((vein_centers.length : ℚ) / 3) 1
    let consistency_factor :=
      if 1 < vein_centers.length then
        let varx := qvar (vein_centers.map fun c => (c.1 : ℚ))
        let vary := qvar (vein_centers.map fun c => (c.2 : ℚ))
        max 0 (1 - (varx + vary) / 2 / 1000)
      else 4 / 5
    let smoothness_factor :=
      match lastN 2 s.movement_history with
      | [a, b] =>
          if (b.dx - a.dx).natAbs < 5 ∧ (b.dy - a.dy).natAbs < 5 then 1 else 4 / 5
      | _ => 4 / 5
    min (count_factor * (2 / 5) + consistency_factor * (2 / 5) +
         smoothness_factor * (1 / 5)) 1

/-- `ROIHandler._update_movement_statistics(movement)`. -/
def updateMovementStatistics (s : ROIHandler) (m : ROIMovement) : ROIHandler :=
  { s with
      total_movements := s.total_movements + 1
      stable_frames := s.stable_frames + (if m.movement_type = "stable" then 1 else 0)
      drift_frames := s.drift_frames + (if m.movement_type = "drift" then 1 else 0) }

/-- The moving branch of `ROIHandler.update_roi` (initialized ROI,
non-empty `vein_centers`): target selection → speed limit → smoothing →
apply, recording the movement and updating the statistics. -/
def updateRoiMove (s : ROIHandler) (vein_centers : List (ℤ × ℤ))
    (roi_info : Option (List (ℚ × ℚ))) : ROIHandler × Roi :=
  let target_center := calcTargetCenter s vein_centers roi_info
  let current_center := getCurrentCenter s
  let dx := target_center.1 - current_center.1
  let dy := target_center.2 - current_center.2
  let limited := limitMovement s.max_movement_speed dx dy
  let smoothed := smoothMovement s limited.1 limited.2
  let new_roi := applyMovement s smoothed.1 smoothed.2
  let movement : ROIMovement :=
    ⟨smoothed.1, smoothed.2, calcMovementConfidence s vein_centers,
     classifyMovement smoothed.1 smoothed.2⟩
  let s1 := { s with
                movement_history := appendBounded 5 s.movement_history movement
                position_history := appendBounded 10 s.position_history target_center }
  let s2 := updateMovementStatistics s1 movement
  ({ s2 with current_roi := some new_roi }, new_roi)

/-- `ROIHandler.update_roi(frame, vein_centers, roi_info)`: auto-reinit at
the frame center when uninitialized; no-op on an empty center list; else
the moving branch `updateRoiMove`.  Returns (new state, roi). -/
def updateRoi (s : ROIHandler) (frame : FrameDims) (vein_centers : List (ℤ × ℤ))
    (roi_info : Option (List (ℚ × ℚ))) : ROIHandler × Roi :=
  match s.current_roi with
  | none => initRoi s (frame.width.fdiv 2) (frame.height.fdiv 2) frame.width frame.height
  | some roi =>
    if vein_centers.isEmpty then (s, roi)
    else updateRoiMove s vein_centers roi_info

/-- `ROIHandler.reset_roi(center_x, center_y, frame_width, frame_height)`:
clear all state, then re-initialize. -/
def resetRoi (s : ROIHandler) (cx cy fw fh : ℤ) : ROIHandler × Roi :=
  initRoi { s with
              current_roi := none
              movement_history := []
              position_history := []
              total_movements := 0
              stable_frames := 0
              drift_frames := 0 } cx cy fw fh

/-- The dict returned by `ROIHandler.get_roi_statistics()`. -/
structure ROIStatistics where
  total_movements : ℕ
  stable_frames : ℕ
  drift_frames : ℕ
  stability_rate : ℚ
  drift_rate : ℚ
  current_position : ℤ × ℤ
  current_roi : Option Roi
deriving DecidableEq

/-- `ROIHandler.get_roi_statistics()`: the rates divide by
`max(total_movements, 1)`. -/
def getRoiStatistics (s : ROIHandler) : ROIStatistics :=
  ⟨s.total_movements, s.stable_frames, s.drift_frames,
   (s.stable_frames : ℚ) / (max s.total_movements 1 : ℕ),
   (s.drift_frames : ℚ) / (max s.total_movements 1 : ℕ),
   getCurrentCenter s, s.current_roi⟩

/-- Earlier-accepted / later-accepted NMS relation: the later candidate's
overlap comparison against the earlier one came out `false`. -/
def noOverlapGT (t : ℚ) (a b : Candidate) : Prop := overlapGTb b a t = false

/-- Truncation toward zero on `ℝ`, the meaning of Python `int(x)` on a
float. -/
noncomputable def truncR (x : ℝ) : ℤ := if 0 ≤ x then ⌊x⌋ else ⌈x⌉

/-- A fresh tracker with the constructor's default arguments. -/
def defaultHandler : ROIHandler := mkROIHandler 200 200 (1 / 10) 50

/-- States of a `ROIHandler` instance reachable from construction by any
sequence of `initialize_roi`, `update_roi` and `reset_roi` calls. -/
inductive Reachable : ROIHandler → Prop
  | base (iw ih : ℤ) (mt ms : ℚ) : Reachable (mkROIHandler iw ih mt ms)
  | step_init (s : ROIHandler) (cx cy fw fh : ℤ) :
      Reachable s → Reachable (initRoi s cx cy fw fh).1
  | step_update (s : ROIHandler) (frame : FrameDims) (vein_centers : List (ℤ × ℤ))
      (roi_info : Option (List (ℚ × ℚ))) :
      Reachable s → Reachable (updateRoi s frame vein_centers roi_info).1
  | step_reset (s : ROIHandler) (cx cy fw fh : ℤ) :
      Reachable s → Reachable (resetRoi s cx cy fw fh).1

/-- Concrete candidate used to exercise `createVeinRegion`: radius 10,
nothing else set. -/
def c5w : Candidate := { cnone with radius := some 10 }

/-- The `VeinRegion` that `createVeinRegion` produces for `c5w`. -/
def c5wOut : VeinRegion :=
  ⟨(0, 0), 10, np_pi * 10 ^ 2, 2 * np_pi * 10, 1, 1 / 2, (-10, -10, 20, 20)⟩

/-- A connected-component-style candidate carrying a measured perimeter of
`100` alongside a radius of `10`. -/
def c5cx : Candidate := { cnone with radius := some 10, perimeter := some 100 }

/-- A frame oracle whose Hough step raises (models a `cv2.error` escaping
`cv2.HoughCircles`). -/
def oHoughErr : FrameOracle := ⟨.ok (), .ok (), .error "cv2.error", .ok [], .ok []⟩

/-- A contour whose `cv2.fitEllipse` call raises (`fit = none`) although it
passes the area filter and has enough points. -/
def ctBadFit : ContourData := ⟨6, 500, none⟩

/-- A region with a zero-width bounding box (`minc = maxc`): malformed
geometry that the connected-component analysis must skip. -/
def rpZeroWidth : RegionProp := ⟨500, none, (0, 0, 5, 0), (0, 0), 10, 0, 0⟩

/-- Two candidates used to exercise the fusion NMS: far-apart centers, so
both survive. -/
def c1a : Candidate := { cnone with center := some (0, 0), radius := some 10,
                                    confidence := some (9 / 10) }

/-- Second NMS exercise candidate, see `c1a`. -/
def c1b : Candidate := { cnone with center := some (100, 100), radius := some 10,
                                    confidence := some (1 / 2) }

/-- A contour whose fitted ellipse is circular (`MA = ma = 10`). -/
def c6ct : ContourData := ⟨6, 500, some ⟨0, 0, 10, 10, 0⟩⟩

/-- The candidate `_ellipse_fitting` produces for `c6ct`. -/
def c6out : Candidate := { cnone with center := some (0, 0), axes := some (10, 10),
                                      ellipticity := some 1, confidence := some (9 / 10),
                                      area := some 500 }

/-- A contour whose fitted ellipse has axes `(12, 10)`: the axis quotient
`12/10 = 1.2` passes the default ellipticity filter `[0.7, 1.3]`. -/
def c6big : ContourData := ⟨6, 500, some ⟨0, 0, 12, 10, 0⟩⟩

/-- The candidate `_ellipse_fitting` produces for `c6big`. -/
def c6bigOut : Candidate := { cnone with center := some (0, 0), axes := some (12, 10),
                                         ellipticity := some (6 / 5),
                                         confidence := some (9 / 10), area := some 500 }

/-! ## Theorems -/

/-- Comparing a square root of a rational against a rational via squares:
`√D < y ↔ 0 < y ∧ D < y²` (no sign assumption on `D`; `Real.sqrt` of a
negative argument is `0`). -/
theorem sqrtQ_lt_iff (D y : ℚ) :
    Real.sqrt (D : ℝ) < (y : ℝ) ↔ 0 < y ∧ D < y ^ 2 := by
  constructor
  · intro h
    have hy : (0 : ℝ) < (y : ℝ) := lt_of_le_of_lt (Real.sqrt_nonneg _) h
    have h2 := (Real.sqrt_lt' hy).mp h
    refine ⟨by exact_mod_cast hy, ?_⟩
    have h3 : (D : ℝ) < ((y ^ 2 : ℚ) : ℝ) := by push_cast; exact h2
    exact_mod_cast h3
  · rintro ⟨hy, h2⟩
    rw [Real.sqrt_lt' (by exact_mod_cast hy)]
    have h3 : (D : ℝ) < ((y ^ 2 : ℚ) : ℝ) := by exact_mod_cast h2
    push_cast at h3
    exact h3

theorem distSq_nonneg (c1 c2 : Candidate) : 0 ≤ distSq c1 c2 := by
  unfold distSq; positivity

theorem distSq_comm (c1 c2 : Candidate) : distSq c1 c2 = distSq c2 c1 := by
  unfold distSq; ring

theorem overlapReal_comm (c1 c2 : Candidate) : overlapReal c1 c2 = overlapReal c2 c1 := by
  unfold overlapReal
  rw [distSq_comm, min_comm]

/-- The executable NMS comparison agrees with the source's
`_calculate_overlap_ratio(r1, r2) > t` over the reals. -/
theorem overlapGTb_iff (c1 c2 : Candidate) (t : ℚ) :
    overlapGTb c1 c2 t = true ↔ (t : ℝ) < overlapReal c1 c2 := by
  unfold overlapGTb overlapReal
  by_cases h : 0 < min (equivRadius c1) (equivRadius c2) ∧
      distSq c1 c2 < min (equivRadius c1) (equivRadius c2) ^ 2
  · have hlt : Real.sqrt (distSq c1 c2 : ℝ) <
        ((min (equivRadius c1) (equivRadius c2) : ℚ) : ℝ) := (sqrtQ_lt_iff _ _).mpr h
    rw [if_pos h, if_pos hlt, decide_eq_true_eq]
    have hmpos : (0 : ℝ) < ((min (equivRadius c1) (equivRadius c2) : ℚ) : ℝ) := by
      exact_mod_cast h.1
    rw [lt_div_iff₀ hmpos, ← sqrtQ_lt_iff]
    push_cast
    constructor
    · intro hs; nlinarith [hs]
    · intro hs; nlinarith [hs]
  · have hnlt : ¬ Real.sqrt (distSq c1 c2 : ℝ) <
        ((min (equivRadius c1) (equivRadius c2) : ℚ) : ℝ) := by
      rw [sqrtQ_lt_iff]; exact h
    rw [if_neg h, if_neg hnlt, decide_eq_true_eq]
    constructor
    · intro ht; exact_mod_cast ht
    · intro ht; exact_mod_cast ht

/-- The greedy NMS fold only ever appends a candidate whose overlap
comparison against every already-accepted candidate came out false. -/
theorem nms_foldl_pairwise (t : ℚ) (l : List Candidate) :
    ∀ acc : List Candidate, List.Pairwise (noOverlapGT t) acc →
      List.Pairwise (noOverlapGT t) (l.foldl (nmsStep t) acc) := by
  induction l with
  | nil => intro acc h; exact h
  | cons r rs ih =>
    intro acc h
    rw [List.foldl_cons]
    apply ih
    unfold nmsStep
    split_ifs with hany
    · exact h
    · rw [List.pairwise_append]
      refine ⟨h, List.pairwise_singleton _ _, ?_⟩
      intro a ha b hb
      rw [List.mem_singleton] at hb
      subst hb
      rw [List.any_eq_true] at hany
      push_neg at hany
      exact Bool.eq_false_iff.mpr (hany a ha)

/-- C1: fusion NMS suppression invariant — any two distinct candidates
accepted by `_remove_overlapping_regions` with the default
`overlap_threshold = 0.3` have pairwise overlap (the source's
`_calculate_overlap_ratio`, with equivalent radius = half the larger axis
when elliptical, else the radius field, else 10) at most `0.3`. -/
theorem nms_pairwise_overlap_le (regions : List Candidate) (i j : ℕ)
    (hi : i < (removeOverlappingRegions (3 / 10) regions).length)
    (hj : j < (removeOverlappingRegions (3 / 10) regions).length)
    (hij : i ≠ j) :
    overlapReal ((removeOverlappingRegions (3 / 10) regions).getD i cnone)
        ((removeOverlappingRegions (3 / 10) regions).getD j cnone)
      ≤ ((3 / 10 : ℚ) : ℝ) := by
  have hp : List.Pairwise (noOverlapGT (3 / 10)) (removeOverlappingRegions (3 / 10) regions) :=
    nms_foldl_pairwise _ _ [] List.Pairwise.nil
  rw [List.pairwise_iff_get] at hp
  have key : ∀ a b : ℕ, ∀ ha : a < (removeOverlappingRegions (3 / 10) regions).length,
      ∀ hb : b < (removeOverlappingRegions (3 / 10) regions).length, a < b →
      overlapReal ((removeOverlappingRegions (3 / 10) regions).getD b cnone)
          ((removeOverlappingRegions (3 / 10) regions).getD a cnone) ≤ ((3 / 10 : ℚ) : ℝ) := by
    intro a b ha hb hab
    have hno := hp ⟨a, ha⟩ ⟨b, hb⟩ hab
    unfold noOverlapGT at hno
    rw [List.getD_eq_getElem _ _ ha, List.getD_eq_getElem _ _ hb]
    by_contra hgt
    push_neg at hgt
    have := (overlapGTb_iff _ _ (3 / 10)).mpr hgt
    rw [List.get_eq_getElem, List.get_eq_getElem] at hno
    rw [this] at hno
    cases hno
  rcases lt_or_gt_of_ne hij with hlt | hgt
  · rw [overlapReal_comm]
    exact key i j hi hj hlt
  · exact key j i hj hi hgt

/-- Concrete evaluation of the NMS on two far-apart candidates: both are
accepted. -/
theorem rm_two_eval : removeOverlappingRegions (3 / 10) [c1a, c1b] = [c1a, c1b] := by
  norm_num [removeOverlappingRegions, sortByConfDesc, List.mergeSort, nmsStep,
    overlapGTb, distSq, centerOf, equivRadius, confKey, c1a, c1b, cnone]

theorem nms_pairwise_overlap_le_witness :
    overlapReal ((removeOverlappingRegions (3 / 10) [c1a, c1b]).getD 0 cnone)
        ((removeOverlappingRegions (3 / 10) [c1a, c1b]).getD 1 cnone)
      ≤ ((3 / 10 : ℚ) : ℝ) :=
  nms_pairwise_overlap_le [c1a, c1b] 0 1 (by rw [rm_two_eval]; simp)
    (by rw [rm_two_eval]; simp) (by simp)

/-- Rational/integer computation of `⌊q / √s⌋` for `q ≥ 0 < s`:
`⌊q/√s⌋ = Nat.sqrt ⌊q²/s⌋`. -/
theorem natSqrt_eq_floor_div_sqrt (q s : ℚ) (hq : 0 ≤ q) (hs : 0 < s) :
    ((Nat.sqrt (⌊q ^ 2 / s⌋).toNat : ℤ)) = ⌊(q : ℝ) / Real.sqrt (s : ℝ)⌋ := by
  have hsR : (0 : ℝ) < (s : ℝ) := by exact_mod_cast hs
  have hqR : (0 : ℝ) ≤ (q : ℝ) := by exact_mod_cast hq
  have hfl_nn : (0 : ℚ) ≤ q ^ 2 / s := div_nonneg (by positivity) hs.le
  have hmval : (((⌊q ^ 2 / s⌋).toNat : ℤ)) = ⌊q ^ 2 / s⌋ :=
    Int.toNat_of_nonneg (Int.floor_nonneg.mpr hfl_nn)
  have hkey : Real.sqrt ((q : ℝ) ^ 2 / (s : ℝ)) = (q : ℝ) / Real.sqrt (s : ℝ) := by
    rw [Real.sqrt_div (by positivity), Real.sqrt_sq hqR]
  symm
  rw [Int.floor_eq_iff]
  constructor
  · rw [← hkey]
    rw [Real.le_sqrt (by positivity) (by positivity)]
    have h1 : (Nat.sqrt (⌊q ^ 2 / s⌋).toNat) ^ 2 ≤ (⌊q ^ 2 / s⌋).toNat := Nat.sqrt_le' _
    have h2 : (((⌊q ^ 2 / s⌋).toNat : ℚ)) ≤ q ^ 2 / s := by
      rw [show (((⌊q ^ 2 / s⌋).toNat : ℚ)) = ((⌊q ^ 2 / s⌋ : ℤ) : ℚ) from by
        exact_mod_cast congrArg (fun z : ℤ => (z : ℚ)) hmval]
      exact Int.floor_le _
    calc (((Nat.sqrt (⌊q ^ 2 / s⌋).toNat : ℤ) : ℝ)) ^ 2
        ≤ (((⌊q ^ 2 / s⌋).toNat : ℕ) : ℝ) := by exact_mod_cast h1
      _ ≤ ((q ^ 2 / s : ℚ) : ℝ) := by exact_mod_cast h2
      _ = (q : ℝ) ^ 2 / (s : ℝ) := by push_cast; ring
  · rw [← hkey]
    have h1 : (⌊q ^ 2 / s⌋).toNat < (Nat.sqrt (⌊q ^ 2 / s⌋).toNat + 1) ^ 2 :=
      Nat.sqrt_lt'.mp (Nat.lt_succ_self _)
    have h2 : (q ^ 2 / s : ℚ) < (((⌊q ^ 2 / s⌋).toNat : ℚ)) + 1 := by
      rw [show (((⌊q ^ 2 / s⌋).toNat : ℚ)) = ((⌊q ^ 2 / s⌋ : ℤ) : ℚ) from by
        exact_mod_cast congrArg (fun z : ℤ => (z : ℚ)) hmval]
      exact Int.lt_floor_add_one _
    have h3 : (⌊q ^ 2 / s⌋).toNat + 1 ≤ (Nat.sqrt (⌊q ^ 2 / s⌋).toNat + 1) ^ 2 :=
      Nat.succ_le_of_lt h1
    rw [Real.sqrt_lt' (by positivity)]
    calc (q : ℝ) ^ 2 / (s : ℝ) = ((q ^ 2 / s : ℚ) : ℝ) := by push_cast; ring
      _ < (((⌊q ^ 2 / s⌋).toNat : ℕ) : ℝ) + 1 := by exact_mod_cast h2
      _ ≤ ((((Nat.sqrt (⌊q ^ 2 / s⌋).toNat + 1 : ℕ)) : ℝ)) ^ 2 := by exact_mod_cast h3
      _ = (((Nat.sqrt (⌊q ^ 2 / s⌋).toNat : ℤ) : ℝ) + 1) ^ 2 := by push_cast; ring

/-- `divSqrtTrunc q s` is exactly the truncation toward zero of
`q / math.sqrt(s)` (for `0 < s`), i.e. the meaning of the source's
`int(q / math.sqrt(s))`. -/
theorem divSqrtTrunc_eq (q s : ℚ) (hs : 0 < s) :
    divSqrtTrunc q s = truncR ((q : ℝ) / Real.sqrt (s : ℝ)) := by
  unfold divSqrtTrunc truncR
  by_cases hq : 0 ≤ q
  · rw [if_pos hq,
      if_pos (div_nonneg (by exact_mod_cast hq) (Real.sqrt_nonneg _))]
    exact natSqrt_eq_floor_div_sqrt q s hq hs
  · push_neg at hq
    have hqR : (q : ℝ) < 0 := by exact_mod_cast hq
    have hx : (q : ℝ) / Real.sqrt (s : ℝ) < 0 :=
      div_neg_of_neg_of_pos hqR (Real.sqrt_pos.mpr (by exact_mod_cast hs))
    rw [if_neg (not_le.mpr hq), if_neg (not_le.mpr hx)]
    have hrec := natSqrt_eq_floor_div_sqrt (-q) s (by linarith) hs
    rw [show (-q : ℚ) ^ 2 = q ^ 2 from by ring] at hrec
    rw [show ((q : ℝ) / Real.sqrt (s : ℝ))
          = -(((-q : ℚ) : ℝ) / Real.sqrt (s : ℝ)) from by push_cast; ring,
      Int.ceil_neg, hrec]

/-- The square of `divSqrtTrunc q s` is at most `q² / s` (for `0 < s`). -/
theorem divSqrtTrunc_sq_le (q s : ℚ) (hs : 0 < s) :
    ((divSqrtTrunc q s : ℤ) : ℚ) ^ 2 ≤ q ^ 2 / s := by
  have hk : ((divSqrtTrunc q s : ℤ) : ℚ) ^ 2
      = ((Nat.sqrt (⌊q ^ 2 / s⌋).toNat : ℚ)) ^ 2 := by
    unfold divSqrtTrunc
    split_ifs <;> push_cast <;> ring
  rw [hk]
  have h1 : (Nat.sqrt (⌊q ^ 2 / s⌋).toNat) ^ 2 ≤ (⌊q ^ 2 / s⌋).toNat := Nat.sqrt_le' _
  have hnn : (0 : ℚ) ≤ q ^ 2 / s := div_nonneg (by positivity) hs.le
  calc ((Nat.sqrt (⌊q ^ 2 / s⌋).toNat : ℚ)) ^ 2
      ≤ (((⌊q ^ 2 / s⌋).toNat : ℕ) : ℚ) := by exact_mod_cast h1
    _ = ((⌊q ^ 2 / s⌋ : ℤ) : ℚ) := by
        exact_mod_cast congrArg (fun z : ℤ => (z : ℚ))
          (Int.toNat_of_nonneg (Int.floor_nonneg.mpr hnn))
    _ ≤ q ^ 2 / s := Int.floor_le _

/-- The scaling condition of `_limit_movement` with the default speed 50:
`sqrt(distSq) > 50 ↔ 2500 < distSq`. -/
theorem sqrtGT_fifty (S : ℚ) : sqrtGT S 50 = true ↔ (50 : ℚ) ^ 2 < S := by
  unfold sqrtGT
  rw [Bool.or_eq_true, decide_eq_true_eq, decide_eq_true_eq]
  constructor
  · rintro (h | h)
    · norm_num at h
    · exact h
  · intro h
    exact Or.inr h

/-- C3 amended: the speed-limited displacement always satisfies
`dx² + dy² ≤ max_movement_speed²` (default 50), and whenever the raw
magnitude exceeds the cap, each returned component is the *integer
truncation* of the exactly-rescaled component
`50·d / sqrt(dx² + dy²)` — so the limited vector's magnitude is at most
50, but (because of `int(...)`) not in general exactly 50. -/
theorem limit_movement_speed_cap (dx dy : ℤ) :
    (limitMovement 50 dx dy).1 ^ 2 + (limitMovement 50 dx dy).2 ^ 2 ≤ 2500
      ∧ ((2500 : ℚ) < ((dx ^ 2 + dy ^ 2 : ℤ) : ℚ) →
          (limitMovement 50 dx dy).1
              = truncR ((50 * (dx : ℝ)) / Real.sqrt ((dx : ℝ) ^ 2 + (dy : ℝ) ^ 2))
            ∧ (limitMovement 50 dx dy).2
              = truncR ((50 * (dy : ℝ)) / Real.sqrt ((dx : ℝ) ^ 2 + (dy : ℝ) ^ 2))) := by
  by_cases hc : (50 : ℚ) ^ 2 < ((dx ^ 2 + dy ^ 2 : ℤ) : ℚ)
  · have hS : (0 : ℚ) < ((dx ^ 2 + dy ^ 2 : ℤ) : ℚ) := lt_trans (by norm_num) hc
    have hout : limitMovement 50 dx dy
        = (divSqrtTrunc (50 * (dx : ℚ)) ((dx ^ 2 + dy ^ 2 : ℤ) : ℚ),
           divSqrtTrunc (50 * (dy : ℚ)) ((dx ^ 2 + dy ^ 2 : ℤ) : ℚ)) := by
      unfold limitMovement
      rw [if_pos ((sqrtGT_fifty _).mpr hc)]
    constructor
    · rw [hout]
      have h1 := divSqrtTrunc_sq_le (50 * (dx : ℚ)) ((dx ^ 2 + dy ^ 2 : ℤ) : ℚ) hS
      have h2 := divSqrtTrunc_sq_le (50 * (dy : ℚ)) ((dx ^ 2 + dy ^ 2 : ℤ) : ℚ) hS
      have hsum : ((divSqrtTrunc (50 * (dx : ℚ)) ((dx ^ 2 + dy ^ 2 : ℤ) : ℚ) : ℤ) : ℚ) ^ 2
          + ((divSqrtTrunc (50 * (dy : ℚ)) ((dx ^ 2 + dy ^ 2 : ℤ) : ℚ) : ℤ) : ℚ) ^ 2
          ≤ 2500 := by
        have hflat : (50 * (dx : ℚ)) ^ 2 / ((dx ^ 2 + dy ^ 2 : ℤ) : ℚ)
            + (50 * (dy : ℚ)) ^ 2 / ((dx ^ 2 + dy ^ 2 : ℤ) : ℚ) = 2500 := by
          rw [div_add_div_same, div_eq_iff (ne_of_gt hS)]
          push_cast
          ring
        linarith [h1, h2]
      exact_mod_cast hsum
    · intro _
      rw [hout]
      have hq1 : ((50 * (dx : ℚ) : ℚ) : ℝ) = 50 * (dx : ℝ) := by push_cast; ring
      have hq2 : ((50 * (dy : ℚ) : ℚ) : ℝ) = 50 * (dy : ℝ) := by push_cast; ring
      have hcast : ((((dx ^ 2 + dy ^ 2 : ℤ) : ℚ)) : ℝ) = (dx : ℝ) ^ 2 + (dy : ℝ) ^ 2 := by
        push_cast; ring
      constructor
      · dsimp only
        rw [divSqrtTrunc_eq _ _ hS, hq1, hcast]
      · dsimp only
        rw [divSqrtTrunc_eq _ _ hS, hq2, hcast]
  · have hout : limitMovement 50 dx dy = (dx, dy) := by
      unfold limitMovement
      rw [if_neg (fun ht => hc ((sqrtGT_fifty _).mp ht))]
    refine ⟨?_, fun h => absurd h hc⟩
    rw [hout]
    push_neg at hc
    exact_mod_cast hc

theorem limit_movement_speed_cap_witness :
    ((limitMovement 50 50 50).1 ^ 2 + (limitMovement 50 50 50).2 ^ 2 ≤ 2500)
      ∧ (limitMovement 50 50 50).1
          = truncR ((50 * ((50 : ℤ) : ℝ)) / Real.sqrt (((50 : ℤ) : ℝ) ^ 2 + ((50 : ℤ) : ℝ) ^ 2)) :=
  ⟨(limit_movement_speed_cap 50 50).1,
   ((limit_movement_speed_cap 50 50).2 (by norm_num)).1⟩

/-- C3 counterexample: for the raw displacement `(50, 50)` (magnitude
`√5000 ≈ 70.7 > 50`) the source's `int(...)` truncation yields
`(35, 35)`, whose magnitude `√2450 ≈ 49.497` is *not* exactly 50 — the
claim's "scaled down to exactly that magnitude" fails on the returned
integer vector. -/
theorem limit_movement_not_exact :
    limitMovement 50 50 50 = (35, 35)
      ∧ Real.sqrt ((35 : ℝ) ^ 2 + (35 : ℝ) ^ 2) ≠ 50
      ∧ (50 : ℝ) < Real.sqrt ((50 : ℝ) ^ 2 + (50 : ℝ) ^ 2) := by
  refine ⟨?_, ?_, ?_⟩
  · have h2 : Nat.sqrt 1250 = 35 := by
      have ha : 35 ≤ Nat.sqrt 1250 := Nat.le_sqrt.mpr (by norm_num)
      have hb : Nat.sqrt 1250 < 36 := Nat.sqrt_lt'.mpr (by norm_num)
      omega
    unfold limitMovement sqrtGT divSqrtTrunc
    norm_num
    rw [show ((1250 : ℤ).toNat) = 1250 from rfl, h2]
    norm_num
  · intro h
    have h2 := congrArg (fun x : ℝ => x ^ 2) h
    simp only at h2
    rw [Real.sq_sqrt (by norm_num)] at h2
    norm_num at h2
  · rw [show (50 : ℝ) ^ 2 + (50 : ℝ) ^ 2 = 5000 by norm_num]
    rw [Real.lt_sqrt (by norm_num)]
    norm_num

/-- C2: with an initialized ROI, `update_roi(frame, [], roi_info)` returns
the exact current ROI and the completely unchanged tracker state (so in
particular the movement history, position history and all three counters
are untouched). -/
theorem update_roi_no_evidence (s : ROIHandler) (frame : FrameDims)
    (roi_info : Option (List (ℚ × ℚ))) (r : Roi) (h : s.current_roi = some r) :
    updateRoi s frame [] roi_info = (s, r) := by
  unfold updateRoi
  rw [h]
  rfl

theorem update_roi_no_evidence_witness :
    updateRoi (initRoi defaultHandler 100 100 640 480).1 ⟨480, 640⟩ [] none
      = ((initRoi defaultHandler 100 100 640 480).1, (0, 0, 200, 200)) :=
  update_roi_no_evidence _ _ _ _ (by decide)

/-- C9: with an uninitialized ROI, `update_roi` initializes at the frame
center `(width // 2, height // 2)` and returns immediately; the supplied
`vein_centers` and `roi_info` are ignored entirely, nothing is appended to
the movement history, and none of the three counters changes. -/
theorem update_roi_uninitialized (s : ROIHandler) (frame : FrameDims)
    (vein_centers : List (ℤ × ℤ)) (roi_info : Option (List (ℚ × ℚ)))
    (h : s.current_roi = none) :
    updateRoi s frame vein_centers roi_info
        = initRoi s (frame.width.fdiv 2) (frame.height.fdiv 2) frame.width frame.height
      ∧ (updateRoi s frame vein_centers roi_info).1.movement_history = s.movement_history
      ∧ (updateRoi s frame vein_centers roi_info).1.total_movements = s.total_movements
      ∧ (updateRoi s frame vein_centers roi_info).1.stable_frames = s.stable_frames
      ∧ (updateRoi s frame vein_centers roi_info).1.drift_frames = s.drift_frames
      ∧ ∀ (vc' : List (ℤ × ℤ)) (ri' : Option (List (ℚ × ℚ))),
          updateRoi s frame vein_centers roi_info = updateRoi s frame vc' ri' := by
  unfold updateRoi
  rw [h]
  refine ⟨rfl, ?_, ?_, ?_, ?_, fun vc' ri' => rfl⟩ <;> simp [initRoi]

theorem update_roi_uninitialized_witness :
    updateRoi defaultHandler ⟨480, 640⟩ [(5, 5)] (some [(1, 1)])
        = initRoi defaultHandler ((640 : ℤ).fdiv 2) ((480 : ℤ).fdiv 2) 640 480
      ∧ (updateRoi defaultHandler ⟨480, 640⟩ [(5, 5)] (some [(1, 1)])).1.movement_history
          = defaultHandler.movement_history
      ∧ updateRoi defaultHandler ⟨480, 640⟩ [(5, 5)] (some [(1, 1)])
          = updateRoi defaultHandler ⟨480, 640⟩ [] none := by
  obtain ⟨h1, h2, _, _, _, h6⟩ :=
    update_roi_uninitialized defaultHandler ⟨480, 640⟩ [(5, 5)] (some [(1, 1)]) rfl
  exact ⟨h1, h2, h6 [] none⟩

/-- C8: movement classification happens exactly at the claimed square-root
thresholds: `"stable"` iff the displacement magnitude is `< 3`, `"drift"`
iff it is in `[3, 20)`, `"jump"` iff it is `≥ 20`; in particular `(3, 0)`
classifies as `"drift"` and `(0, 2)` as `"stable"`. -/
theorem classify_movement_boundaries (dx dy : ℤ) :
    (classifyMovement dx dy = "stable" ↔
        Real.sqrt ((dx : ℝ) ^ 2 + (dy : ℝ) ^ 2) < 3)
      ∧ (classifyMovement dx dy = "drift" ↔
          3 ≤ Real.sqrt ((dx : ℝ) ^ 2 + (dy : ℝ) ^ 2)
            ∧ Real.sqrt ((dx : ℝ) ^ 2 + (dy : ℝ) ^ 2) < 20)
      ∧ (classifyMovement dx dy = "jump" ↔
          20 ≤ Real.sqrt ((dx : ℝ) ^ 2 + (dy : ℝ) ^ 2))
      ∧ classifyMovement 3 0 = "drift" ∧ classifyMovement 0 2 = "stable" := by
  have hS : ((dx ^ 2 + dy ^ 2 : ℤ) : ℝ) = (dx : ℝ) ^ 2 + (dy : ℝ) ^ 2 := by push_cast; ring
  have hnn : (0 : ℝ) ≤ (dx : ℝ) ^ 2 + (dy : ℝ) ^ 2 := by positivity
  have h9 : Real.sqrt ((dx : ℝ) ^ 2 + (dy : ℝ) ^ 2) < 3 ↔ dx ^ 2 + dy ^ 2 < 9 := by
    rw [← hS, Real.sqrt_lt' (by norm_num : (0 : ℝ) < 3)]
    constructor
    · intro h; exact_mod_cast h
    · intro h
      rw [show ((3 : ℝ)) ^ 2 = ((9 : ℤ) : ℝ) by norm_num]
      exact_mod_cast h
  have h400 : Real.sqrt ((dx : ℝ) ^ 2 + (dy : ℝ) ^ 2) < 20 ↔ dx ^ 2 + dy ^ 2 < 400 := by
    rw [← hS, Real.sqrt_lt' (by norm_num : (0 : ℝ) < 20)]
    constructor
    · intro h; exact_mod_cast h
    · intro h
      rw [show ((20 : ℝ)) ^ 2 = ((400 : ℤ) : ℝ) by norm_num]
      exact_mod_cast h
  refine ⟨?_, ?_, ?_, by decide, by decide⟩
  · rw [h9]
    unfold classifyMovement
    split_ifs with h1 h2 <;> simp_all
  · rw [h400, ← not_lt, h9]
    unfold classifyMovement
    split_ifs with h1 h2 <;> simp_all
  · rw [← not_lt, h400]
    unfold classifyMovement
    split_ifs with h1 h2 <;> simp_all
    omega

/-- C4 counterexample: with the default 200×200 window and the positive
frame size 500×480, a center at `(700, 100)` (outside the frame) yields
the ROI `(600, 0, -100, 200)` — the width is *not* positive, because
`width = min(200, frame_width - x)` goes negative once
`x = max(0, cx - 100) ≥ frame_width`.  So construction-time clamping does
not prevent degenerate ROIs for arbitrary centers. -/
theorem init_roi_degenerate_width :
    (initRoi defaultHandler 700 100 500 480).2 = (600, 0, -100, 200)
      ∧ ¬(0 < ((initRoi defaultHandler 700 100 500 480).2).2.2.1)
      ∧ (0 : ℤ) < 500 ∧ (0 : ℤ) < 480 := by decide

/-- C4 amended: the initialized ROI satisfies `x ≥ 0`, `y ≥ 0`,
`x + width ≤ frame_width` and `y + height ≤ frame_height`
*unconditionally* (for every center and every frame size), while
`width > 0` and `height > 0` additionally require positive window and
frame sizes and a center not too far beyond the right/bottom frame edge
(`cx < frame_width + initial_width // 2` and symmetrically for `cy`; this
holds in particular for every center inside the frame).  Without that
proviso the width/height positivity fails (`init_roi_degenerate_width`). -/
theorem init_roi_in_frame (s : ROIHandler) (cx cy fw fh : ℤ) :
    (0 ≤ ((initRoi s cx cy fw fh).2).1
      ∧ 0 ≤ ((initRoi s cx cy fw fh).2).2.1
      ∧ ((initRoi s cx cy fw fh).2).1 + ((initRoi s cx cy fw fh).2).2.2.1 ≤ fw
      ∧ ((initRoi s cx cy fw fh).2).2.1 + ((initRoi s cx cy fw fh).2).2.2.2 ≤ fh)
      ∧ (0 < s.initial_width → 0 < s.initial_height → 0 < fw → 0 < fh →
          cx - s.initial_width.fdiv 2 < fw → cy - s.initial_height.fdiv 2 < fh →
          0 < ((initRoi s cx cy fw fh).2).2.2.1
            ∧ 0 < ((initRoi s cx cy fw fh).2).2.2.2) := by
  simp only [initRoi]
  constructor
  · refine ⟨?_, ?_, ?_, ?_⟩ <;>
      simp only [min_def, max_def] <;> split_ifs <;> omega
  · intro hiw hih hfw hfh hcx hcy
    refine ⟨?_, ?_⟩ <;>
      simp only [min_def, max_def] <;> split_ifs <;> omega

/-- C5 counterexample: a candidate that carries a measured
`'perimeter'` of `100` (as the connected-component generator produces) is
converted to a `VeinRegion` whose perimeter is `2π·radius = 20π ≠ 100`:
the measured perimeter is *not* preserved, because `_create_vein_region`
unconditionally recomputes `perimeter = 2 * np.pi * radius` and never
reads the `'perimeter'` key. -/
theorem create_vein_region_perimeter_ignored :
    (createVeinRegion c5cx).map VeinRegion.perimeter = some (20 * np_pi)
      ∧ c5cx.perimeter = some 100 ∧ (20 * np_pi : ℚ) ≠ 100 := by
  refine ⟨?_, rfl, by norm_num [np_pi]⟩
  simp only [createVeinRegion, c5cx, cnone, equivRadius, Option.map_some,
    Option.some.injEq]
  norm_num
  ring

/-- C5 amended: `_create_vein_region` backfills `radius` from
`'radius'`/`'axes'` and `area` from `'area'` (defaulting to `π·radius²`),
but `perimeter` is always recomputed as `2π·radius`, ignoring any measured
`'perimeter'` field — the conversion result is entirely independent of the
candidate's `'perimeter'` key. -/
theorem create_vein_region_fields (c : Candidate) (vr : VeinRegion)
    (h : createVeinRegion c = some vr) :
    vr.radius = equivRadius c
      ∧ vr.area = c.area.getD (np_pi * (equivRadius c) ^ 2)
      ∧ vr.perimeter = 2 * np_pi * equivRadius c
      ∧ createVeinRegion { c with perimeter := none } = createVeinRegion c := by
  simp only [createVeinRegion, Option.some.injEq] at h
  subst h
  exact ⟨rfl, rfl, rfl, rfl⟩

theorem create_vein_region_fields_witness :
    c5wOut.radius = equivRadius c5w
      ∧ c5wOut.area = c5w.area.getD (np_pi * (equivRadius c5w) ^ 2)
      ∧ c5wOut.perimeter = 2 * np_pi * equivRadius c5w
      ∧ createVeinRegion { c5w with perimeter := none } = createVeinRegion c5w :=
  create_vein_region_fields c5w c5wOut (by
    norm_num [createVeinRegion, c5w, c5wOut, cnone, equivRadius, centerOf])

/-- C6 amended: every candidate produced by `_ellipse_fitting` carries
`ellipticity = MA / ma` — the quotient of the *first* by the *second* axis
returned by `cv2.fitEllipse` (the major/minor quotient under the source's
naming, `0` when `ma ≤ 0`) — for some input contour whose fit succeeded,
and that value lies in `[1 − tol, 1 + tol]` where
`tol = elliptical_tolerance`.  With the default `tol = 0.3` this interval
is `[0.7, 1.3]`, which contains values strictly greater than 1, so the
claimed range `(0, 1]` is wrong (see `ellipse_ellipticity_above_one`). -/
theorem ellipse_fitting_ellipticity (st : DetectionSettings) (cts : List ContourData)
    (c : Candidate) (hc : c ∈ ellipseFitting st cts) :
    ∃ e, c.ellipticity = some e
      ∧ 1 - st.elliptical_tolerance ≤ e ∧ e ≤ 1 + st.elliptical_tolerance
      ∧ ∃ ct ∈ cts, ∃ f, ct.fit = some f
          ∧ e = (if 0 < f.ma then f.MA / f.ma else 0) := by
  unfold ellipseFitting at hc
  rw [List.mem_filterMap] at hc
  obtain ⟨ct, hct, heq⟩ := hc
  by_cases h1 : ct.area < st.min_vein_area ∨ st.max_vein_area < ct.area
  · rw [if_pos h1] at heq; cases heq
  rw [if_neg h1] at heq
  by_cases h2 : 5 ≤ ct.npoints
  case neg => rw [if_neg h2] at heq; cases heq
  rw [if_pos h2] at heq
  cases hfit : ct.fit with
  | none => rw [hfit] at heq; cases heq
  | some f =>
    rw [hfit] at heq
    dsimp only at heq
    by_cases h3 : (if 0 < f.ma then f.MA / f.ma else 0) < 1 - st.elliptical_tolerance ∨
        1 + st.elliptical_tolerance < (if 0 < f.ma then f.MA / f.ma else 0)
    · rw [if_pos h3] at heq; cases heq
    · rw [if_neg h3] at heq
      injection heq with heq
      push_neg at h3
      refine ⟨if 0 < f.ma then f.MA / f.ma else 0, ?_, h3.1, h3.2, ct, hct, f, hfit, rfl⟩
      rw [← heq]

theorem ellipse_fitting_ellipticity_witness :
    c6out ∈ ellipseFitting defaultSettings [c6ct]
      ∧ 1 - defaultSettings.elliptical_tolerance ≤ (1 : ℚ)
      ∧ (1 : ℚ) ≤ 1 + defaultSettings.elliptical_tolerance := by
  have hmem : c6out ∈ ellipseFitting defaultSettings [c6ct] := by
    unfold ellipseFitting
    rw [List.mem_filterMap]
    refine ⟨c6ct, by simp, ?_⟩
    norm_num [c6ct, c6out, cnone, defaultSettings, qtrunc, calculateEllipseConfidence, np_pi]
  obtain ⟨e, he, hlo, hhi, _⟩ := ellipse_fitting_ellipticity defaultSettings [c6ct] c6out hmem
  have he1 : c6out.ellipticity = some 1 := rfl
  rw [he1] at he
  injection he with he
  subst he
  exact ⟨hmem, hlo, hhi⟩

/-- C6 counterexample: for a contour with fitted axes `(12, 10)` and area
`500` (all filters pass), the full fusion pipeline returns a single
`VeinRegion` whose ellipticity is `6/5 > 1`: `VeinRegion` ellipticity does
*not* lie in `(0, 1]`. -/
theorem ellipse_ellipticity_above_one :
    (mergeAndFilterResults [] (ellipseFitting defaultSettings [c6big]) []).map
        VeinRegion.ellipticity = [6 / 5]
      ∧ ¬((6 / 5 : ℚ) ≤ 1) := by
  constructor
  · have h1 : ellipseFitting defaultSettings [c6big] = [c6bigOut] := by
      unfold ellipseFitting
      norm_num [c6big, c6bigOut, cnone, defaultSettings, qtrunc,
        calculateEllipseConfidence, np_pi, List.filterMap_cons, List.filterMap_nil]
    unfold mergeAndFilterResults
    rw [h1]
    norm_num [removeOverlappingRegions, sortByConfDesc, List.mergeSort, nmsStep,
      overlapGTb, sortVeinsByConfDesc, createVeinRegion, c6bigOut, cnone, equivRadius,
      centerOf, List.filterMap_cons, List.filterMap_nil]
  · norm_num

/-- C7: `detect_veins_in_frame` is total over the oracle outcomes of its
external steps: when any internal step raises, the frame-level
`try/except` yields `[]`; when all succeed, the fused (ROI-remapped) list
is returned — so no exception ever propagates to the caller.  Moreover
malformed per-candidate geometry does not abort the frame: a contour
whose ellipse fit raises `cv2.error` is skipped by `_ellipse_fitting`, and
a region with a zero-width or zero-height bounding box is skipped by
`_connected_component_analysis`, each leaving the other candidates'
results unchanged. -/
theorem detect_veins_total (st : DetectionSettings) (o : FrameOracle)
    (roi : Option Roi) :
    (∀ e, runDetect st o = .error e → detectVeinsInFrame st o roi = [])
      ∧ (∀ l, runDetect st o = .ok l → detectVeinsInFrame st o roi = remapRoi roi l)
      ∧ (∀ (ct : ContourData) (cts : List ContourData), ct.fit = none →
          ellipseFitting st (ct :: cts) = ellipseFitting st cts)
      ∧ (∀ (r : RegionProp) (rs : List RegionProp),
          (r.bbox.2.2.2 - r.bbox.2.1 = 0 ∨ r.bbox.2.2.1 - r.bbox.1 = 0) →
          connectedComponentAnalysis st (r :: rs) = connectedComponentAnalysis st rs) := by
  refine ⟨?_, ?_, ?_, ?_⟩
  · intro e he; simp [detectVeinsInFrame, he]
  · intro l hl; simp [detectVeinsInFrame, hl]
  · intro ct cts hfit
    unfold ellipseFitting
    rw [List.filterMap_cons]
    split_ifs <;> simp [hfit]
  · intro r rs hwh
    unfold connectedComponentAnalysis
    rw [List.filterMap_cons]
    split_ifs <;> simp [hwh]

theorem detect_veins_total_witness :
    detectVeinsInFrame defaultSettings oHoughErr none = []
      ∧ ellipseFitting defaultSettings [ctBadFit] = ellipseFitting defaultSettings []
      ∧ connectedComponentAnalysis defaultSettings [rpZeroWidth]
          = connectedComponentAnalysis defaultSettings [] :=
  ⟨(detect_veins_total defaultSettings oHoughErr none).1 "cv2.error" rfl,
   (detect_veins_total defaultSettings oHoughErr none).2.2.1 ctBadFit [] rfl,
   (detect_veins_total defaultSettings oHoughErr none).2.2.2 rpZeroWidth [] (Or.inl rfl)⟩

/-- A single recorded movement increments `total_movements` by 1 and
`stable_frames + drift_frames` by at most 1 (the movement type cannot be
both `"stable"` and `"drift"`). -/
theorem updateMovementStatistics_le (s : ROIHandler) (m : ROIMovement) :
    (updateMovementStatistics s m).total_movements = s.total_movements + 1
      ∧ (updateMovementStatistics s m).stable_frames
          + (updateMovementStatistics s m).drift_frames
        ≤ s.stable_frames + s.drift_frames + 1 := by
  unfold updateMovementStatistics
  refine ⟨rfl, ?_⟩
  dsimp only
  split_ifs with hst hdr
  · rw [hst] at hdr; exact absurd hdr (by decide)
  · omega
  · omega
  · omega

/-- In the moving branch, `total_movements` grows by exactly 1 and the
classified-frame counters by at most 1 in total. -/
theorem updateRoiMove_counters (s : ROIHandler) (vc : List (ℤ × ℤ))
    (ri : Option (List (ℚ × ℚ))) :
    (updateRoiMove s vc ri).1.total_movements = s.total_movements + 1
      ∧ (updateRoiMove s vc ri).1.stable_frames + (updateRoiMove s vc ri).1.drift_frames
        ≤ s.stable_frames + s.drift_frames + 1 := by
  unfold updateRoiMove
  exact updateMovementStatistics_le _ _

/-- Effect of one `update_roi` call on the three statistics counters:
either all are unchanged (uninitialized auto-init, or empty center list)
or `total_movements` grows by exactly 1 while `stable_frames +
drift_frames` grows by at most 1 (the movement is classified as exactly
one of `"stable"`, `"drift"`, `"jump"`). -/
theorem updateRoi_counters (s : ROIHandler) (frame : FrameDims)
    (vc : List (ℤ × ℤ)) (ri : Option (List (ℚ × ℚ))) :
    ((updateRoi s frame vc ri).1.stable_frames = s.stable_frames
        ∧ (updateRoi s frame vc ri).1.drift_frames = s.drift_frames
        ∧ (updateRoi s frame vc ri).1.total_movements = s.total_movements)
      ∨ ((updateRoi s frame vc ri).1.total_movements = s.total_movements + 1
          ∧ (updateRoi s frame vc ri).1.stable_frames
              + (updateRoi s frame vc ri).1.drift_frames
            ≤ s.stable_frames + s.drift_frames + 1) := by
  unfold updateRoi
  cases hroi : s.current_roi with
  | none => left; simp [initRoi]
  | some r =>
    by_cases hvc : vc.isEmpty
    · left; simp [hvc]
    · right
      simp only [hvc, if_false, Bool.false_eq_true]
      exact updateRoiMove_counters s vc ri

/-- The counter invariant, by induction over the reachability relation. -/
theorem reachable_counter_inv (s : ROIHandler) (h : Reachable s) :
    s.stable_frames + s.drift_frames ≤ s.total_movements := by
  induction h with
  | base iw ih mt ms => simp [mkROIHandler]
  | step_init s cx cy fw fh hs ihs => simpa [initRoi] using ihs
  | step_update s frame vc ri hs ihs =>
      rcases updateRoi_counters s frame vc ri with ⟨h1, h2, h3⟩ | ⟨h1, h2⟩ <;> omega
  | step_reset s cx cy fw fh hs ihs => simp [resetRoi, initRoi]

/-- C10: in every tracker state reachable by any call sequence,
`stable_frames + drift_frames ≤ total_movements`; hence both rates
returned by `get_roi_statistics` lie in `[0, 1]`, and their common
denominator `max(total_movements, 1)` is positive (never a division by
zero). -/
theorem reachable_stats (s : ROIHandler) (h : Reachable s) :
    s.stable_frames + s.drift_frames ≤ s.total_movements
      ∧ 0 ≤ (getRoiStatistics s).stability_rate
      ∧ (getRoiStatistics s).stability_rate ≤ 1
      ∧ 0 ≤ (getRoiStatistics s).drift_rate
      ∧ (getRoiStatistics s).drift_rate ≤ 1
      ∧ (0 : ℚ) < ((max s.total_movements 1 : ℕ) : ℚ) := by
  have hden : (0 : ℚ) < ((max s.total_movements 1 : ℕ) : ℚ) := by
    have h0 : 0 < max s.total_movements 1 := by omega
    exact_mod_cast h0
  have hinv : s.stable_frames + s.drift_frames ≤ s.total_movements :=
    reachable_counter_inv s h
  have hsle : s.stable_frames ≤ max s.total_movements 1 := by omega
  have hdle : s.drift_frames ≤ max s.total_movements 1 := by omega
  refine ⟨hinv, ?_, ?_, ?_, ?_, hden⟩
  · unfold getRoiStatistics
    positivity
  · unfold getRoiStatistics
    rw [div_le_one hden]
    exact_mod_cast hsle
  · unfold getRoiStatistics
    positivity
  · unfold getRoiStatistics
    rw [div_le_one hden]
    exact_mod_cast hdle

theorem reachable_stats_witness :
    defaultHandler.stable_frames + defaultHandler.drift_frames
        ≤ defaultHandler.total_movements
      ∧ 0 ≤ (getRoiStatistics defaultHandler).stability_rate
      ∧ (getRoiStatistics defaultHandler).stability_rate ≤ 1
      ∧ 0 ≤ (getRoiStatistics defaultHandler).drift_rate
      ∧ (getRoiStatistics defaultHandler).drift_rate ≤ 1
      ∧ (0 : ℚ) < ((max defaultHandler.total_movements 1 : ℕ) : ℚ) :=
  reachable_stats defaultHandler (Reachable.base 200 200 (1 / 10) 50)

theorem init_roi_in_frame_witness :
    (0 ≤ ((initRoi defaultHandler 100 100 640 480).2).1
        ∧ 0 ≤ ((initRoi defaultHandler 100 100 640 480).2).2.1
        ∧ ((initRoi defaultHandler 100 100 640 480).2).1
            + ((initRoi defaultHandler 100 100 640 480).2).2.2.1 ≤ 640
        ∧ ((initRoi defaultHandler 100 100 640 480).2).2.1
            + ((initRoi defaultHandler 100 100 640 480).2).2.2.2 ≤ 480)
      ∧ (0 < ((initRoi defaultHandler 100 100 640 480).2).2.2.1
          ∧ 0 < ((initRoi defaultHandler 100 100 640 480).2).2.2.2) :=
  ⟨(init_roi_in_frame defaultHandler 100 100 640 480).1,
   (init_roi_in_frame defaultHandler 100 100 640 480).2 (by decide) (by decide)
     (by decide) (by decide) (by decide) (by decide)⟩

end VD
